import Mathlib

set_option maxRecDepth 8000

namespace BGG

/-!
Shallow embedding of the bgg-250 repository: the scraper script (listing
crawl, detail extraction, enrichment, output) and the image handling of the
table viewer. Machine numbers are modelled as exact rationals; JavaScript
null/undefined is modelled with Option; code that can throw is modelled with
Except. Strings are modelled as Lean strings, with the regular expressions of
the source modelled at the character-list level.
-/

/-- Character class of the JavaScript regular-expression escape \s:
the whitespace code points matched by the source regexes. -/
def jsSpaceChar (c : Char) : Bool :=
  c == ' ' || c == '\t' || c == '\n' || c == '\x0b' || c == '\x0c' || c == '\r' ||
  c == '\u00A0' || c == '\u1680' ||
  (decide ('\u2000' ≤ c) && decide (c ≤ '\u200A')) ||
  c == '\u2028' || c == '\u2029' || c == '\u202F' || c == '\u205F' ||
  c == '\u3000' || c == '\uFEFF'

/-- Drop leading and trailing whitespace of a character list, as the
JavaScript String.prototype.trim and the implicit trim of Number do. -/
def trimChars (l : List Char) : List Char :=
  ((l.dropWhile jsSpaceChar).reverse.dropWhile jsSpaceChar).reverse

/-- Model of the JavaScript call s.trim(). -/
def jsTrim (s : String) : String := String.mk (trimChars s.data)

/-- Model of the source expression String(x).replace( the regex comma-or-space , ""):
remove every comma and every whitespace character. -/
def cleanCommaSpace (s : String) : String :=
  String.mk (s.data.filter (fun c => !(c == ',' || jsSpaceChar c)))

/-- Value of a digit string, most significant digit first. -/
def digitsToNat (cs : List Char) : ℕ :=
  cs.foldl (fun a c => a * 10 + (c.toNat - 48)) 0

/-- All characters are decimal digits. -/
def allDigits (cs : List Char) : Bool := cs.all (fun c => c.isDigit)

/-- Decimal fragment of the JavaScript Number() grammar on a sign-free token:
digits with at most one decimal point and at least one digit. Exponent, hex,
binary, octal and Infinity forms of Number() are not modelled; no input of
this program takes those shapes, and every claim below stays inside the
decimal fragment. A token outside the grammar is NaN, modelled as none. -/
def parseUnsignedDec (cs : List Char) : Option ℚ :=
  if cs.count '.' = 0 then
    if cs ≠ [] ∧ allDigits cs = true then some ((digitsToNat cs : ℕ) : ℚ) else none
  else if cs.count '.' = 1 then
    let ip := cs.takeWhile (fun c => !(c == '.'))
    let fp := (cs.dropWhile (fun c => !(c == '.'))).drop 1
    if (ip ≠ [] ∨ fp ≠ []) ∧ allDigits ip = true ∧ allDigits fp = true then
      some ((digitsToNat ip : ℚ) + (digitsToNat fp : ℚ) / (10 : ℚ) ^ fp.length)
    else none
  else none

/-- Model of the JavaScript conversion Number(s) on a string: trim whitespace,
map the empty string to 0, handle an optional sign, then parse the decimal
numeral; NaN is modelled as none. -/
def jsNumber (s : String) : Option ℚ :=
  match trimChars s.data with
  | [] => some 0
  | c :: rest =>
    if c = '-' then (parseUnsignedDec rest).map (fun q => -q)
    else if c = '+' then parseUnsignedDec rest
    else parseUnsignedDec (c :: rest)

/-- Embedding of normalizeNumber(text) from the scraper: null/undefined or the
empty string give null; strip commas and whitespace and trim; the empty
residue, a lone en-dash or a lone dash give null; otherwise Number(), with NaN
giving null. -/
def normalizeNumber (text : Option String) : Option ℚ :=
  match text with
  | none => none
  | some s =>
    if s = "" then none
    else
      let cleaned := jsTrim (cleanCommaSpace s)
      if cleaned = "" ∨ cleaned = "–" ∨ cleaned = "-" then none
      else jsNumber cleaned

/-- Number.EPSILON, exactly 2 to the power minus 52. -/
def jsEpsilon : ℚ := 1 / 2 ^ 52

/-- JavaScript Math.round: round to the nearest integer, halves toward
positive infinity. -/
def jsMathRound (x : ℚ) : ℤ := ⌊x + 1 / 2⌋

/-- Embedding of roundTo(value, decimals) from the scraper: null in, null out;
otherwise Math.round((value + Number.EPSILON) * 10 ^ decimals) / 10 ^ decimals. -/
def roundTo (value : Option ℚ) (decimals : ℕ) : Option ℚ :=
  match value with
  | none => none
  | some v =>
    let factor : ℚ := 10 ^ decimals
    some (((jsMathRound ((v + jsEpsilon) * factor) : ℤ) : ℚ) / factor)

/-- JavaScript Math.trunc on an exact rational. -/
def jsTrunc (q : ℚ) : ℤ := if 0 ≤ q then ⌊q⌋ else ⌈q⌉

/-- Embedding of coerceInt(value) from the scraper: null/undefined give null;
otherwise strip commas and whitespace, convert with Number() and truncate,
with NaN giving null. -/
def coerceInt (value : Option String) : Option ℤ :=
  match value with
  | none => none
  | some s => (jsNumber (cleanCommaSpace s)).map jsTrunc

/-- Embedding of coerceFloat(value, decimals) from the scraper. -/
def coerceFloat (value : Option String) (decimals : Option ℕ) : Option ℚ :=
  match value with
  | none => none
  | some s =>
    match jsNumber (cleanCommaSpace s) with
    | none => none
    | some n =>
      match decimals with
      | none => some n
      | some d => roundTo (some n) d

/-- Model of the source expression String(token).match( the regex digits )
followed by taking the matched text: the first maximal run of decimal digits
in the string, or none when the string has no digit. -/
def firstDigitRun (s : String) : Option String :=
  let cs := s.data.dropWhile (fun c => !c.isDigit)
  if cs.isEmpty then none else some (String.mk (cs.takeWhile (fun c => c.isDigit)))

/-- Collect every maximal run of decimal digits, in order; the accumulator
holds the current run reversed. Models matchAll with the digits regex. -/
def digitRunsAux : List Char → List Char → List (List Char)
  | [], cur => if cur.isEmpty then [] else [cur.reverse]
  | c :: rest, cur =>
    if c.isDigit then digitRunsAux rest (c :: cur)
    else if cur.isEmpty then digitRunsAux rest []
    else cur.reverse :: digitRunsAux rest []

/-- Every maximal digit run of a character list. -/
def digitRuns (cs : List Char) : List (List Char) := digitRunsAux cs []

/-- DetailAttributes: the seven gameplay fields produced by the Detail
Extractor, each nullable. -/
structure Details where
  min_players : Option ℤ
  max_players : Option ℤ
  min_best_players : Option ℤ
  max_best_players : Option ℤ
  min_playing_time : Option ℤ
  max_playing_time : Option ℤ
  weight : Option ℚ
deriving DecidableEq, Repr

/-- Details value with every field null, as built by the early return of
fetchGameDetails and by the all-missing extraction outcomes. -/
def allMissingDetails : Details :=
  { min_players := none, max_players := none, min_best_players := none
  , max_best_players := none, min_playing_time := none, max_playing_time := none
  , weight := none }

/-- One entry of polls.userplayers.best in the GEEK.geekitemPreload payload:
a min and max player count, each a raw JSON value modelled as an optional
token. -/
structure RangeEntry where
  min : Option String
  max : Option String
deriving DecidableEq, Repr

/-- Fields of the primary embedded payload GEEK.geekitemPreload that the
primary strategy reads, after the optional-chaining path lookups of the
source; a missing path gives none. bestRanges is none when
polls.userplayers.best is absent or not an array. -/
structure PreloadItem where
  minplayers : Option String
  maxplayers : Option String
  minplaytime : Option String
  maxplaytime : Option String
  weightFromPoll : Option String
  weightFromStats : Option String
  bestRanges : Option (List RangeEntry)
deriving DecidableEq, Repr

/-- Embedding of the primary-strategy body of extractDetailsFromGameHtml:
field extraction from a parsed GEEK.geekitemPreload item. -/
def extractPrimary (item : PreloadItem) : Details :=
  let best : Option ℤ × Option ℤ :=
    match item.bestRanges with
    | none => (none, none)
    | some ranges =>
      if ranges.isEmpty then (none, none)
      else
        let mins := ranges.filterMap (fun r => coerceInt r.min)
        let maxs := ranges.filterMap (fun r => coerceInt r.max)
        if mins.isEmpty || maxs.isEmpty then (none, none)
        else (mins.min?, maxs.max?)
  { min_players := coerceInt item.minplayers
  , max_players := coerceInt item.maxplayers
  , min_best_players := best.1
  , max_best_players := best.2
  , min_playing_time := coerceInt item.minplaytime
  , max_playing_time := coerceInt item.maxplaytime
  , weight := coerceFloat (item.weightFromPoll.or item.weightFromStats) (some 2) }

/-- One row of the suggested_numplayers poll inside the alternate
__NEXT_DATA__ payload. numplayersToken is the source expression
r.numplayers or r.numPlayers or the empty string; the three vote fields are
the numvotes values of the result entries found for best, recommended and
not recommended, none when the entry is absent. -/
structure PollResultRow where
  numplayersToken : String
  bestVotesRaw : Option String
  recVotesRaw : Option String
  notRecVotesRaw : Option String
deriving DecidableEq, Repr

/-- Fields of the alternate __NEXT_DATA__ payload that the secondary strategy
reads, after the alias-resolving nullish chains of the source (game or
pageProps spellings); bestPoll is the results array of the poll whose name
matches suggested_numplayers, none when no such poll or not an array. -/
structure NextGame where
  minplayers : Option String
  maxplayers : Option String
  minplaytime : Option String
  maxplaytime : Option String
  weightRaw : Option String
  bestPoll : Option (List PollResultRow)
deriving DecidableEq, Repr

/-- Body of the poll loop of the secondary strategy: a row contributes its
player count when the count parses to a truthy number and its best tally
equals the maximum of the three tallies and that maximum is positive. -/
def secondaryRowBest (r : PollResultRow) : Option ℤ :=
  match coerceInt (firstDigitRun r.numplayersToken) with
  | none => none
  | some num =>
    if num = 0 then none
    else
      let bestVotes := (coerceInt r.bestVotesRaw).getD 0
      let recVotes := (coerceInt r.recVotesRaw).getD 0
      let notRecVotes := (coerceInt r.notRecVotesRaw).getD 0
      let maxVotes := max bestVotes (max recVotes notRecVotes)
      if 0 < maxVotes ∧ bestVotes = maxVotes then some num else none

/-- Embedding of the secondary-strategy body of extractDetailsFromGameHtml:
field extraction from a parsed __NEXT_DATA__ game object. -/
def extractSecondary (g : NextGame) : Details :=
  let bestNumbers : List ℤ :=
    match g.bestPoll with
    | none => []
    | some rows => rows.filterMap secondaryRowBest
  { min_players := coerceInt g.minplayers
  , max_players := coerceInt g.maxplayers
  , min_best_players := if bestNumbers.isEmpty then none else bestNumbers.min?
  , max_best_players := if bestNumbers.isEmpty then none else bestNumbers.max?
  , min_playing_time := coerceInt g.minplaytime
  , max_playing_time := coerceInt g.maxplaytime
  , weight := coerceFloat g.weightRaw (some 2) }

/-- Captures of the visible-text fallback regexes of the source, modelled as
the captured groups: the two digit groups of the Players range, the group
after Best:, the two digit groups of the Playing time range, and the digit
group of the Weight-out-of-5 or Complexity match. -/
structure BodyFacts where
  playersRangeCapture : Option (String × String)
  bestCapture : Option String
  timeRangeCapture : Option (String × String)
  weightCapture : Option String
deriving DecidableEq, Repr

/-- Embedding of parseBestPlayersFromText: over the captured Best: group,
collect every number and take the least and greatest; no capture or no
number gives a pair of nulls. -/
def parseBestPlayersFromText (capture : Option String) : Option ℤ × Option ℤ :=
  match capture with
  | none => (none, none)
  | some s =>
    let nums : List ℤ := (digitRuns s.data).map (fun run => ((digitsToNat run : ℕ) : ℤ))
    if nums.isEmpty then (none, none) else (nums.min?, nums.max?)

/-- Embedding of the visible-text fallback tail of extractDetailsFromGameHtml. -/
def extractFallback (b : BodyFacts) : Details :=
  let bp := parseBestPlayersFromText b.bestCapture
  { min_players := b.playersRangeCapture.bind (fun p => coerceInt (some p.1))
  , max_players := b.playersRangeCapture.bind (fun p => coerceInt (some p.2))
  , min_best_players := bp.1
  , max_best_players := bp.2
  , min_playing_time := b.timeRangeCapture.bind (fun p => coerceInt (some p.1))
  , max_playing_time := b.timeRangeCapture.bind (fun p => coerceInt (some p.2))
  , weight :=
      match b.weightCapture with
      | some c => coerceFloat (some c) (some 2)
      | none => none }

/-- One detail page as the three strategies of the Detail Extractor see it.
For each embedded payload the outer Option says whether the data block was
located (the preload regex matched with a nonempty group, the __NEXT_DATA__
script tag had nonempty text), and the inner Option whether JSON parsing
succeeded; JSON.parse throwing is the inner none. -/
structure DetailPage where
  preload : Option (Option PreloadItem)
  nextData : Option (Option NextGame)
  body : BodyFacts
deriving DecidableEq, Repr

/-- Embedding of extractDetailsFromGameHtml: the primary strategy returns as
soon as its block is located and parsed; otherwise the secondary strategy
returns as soon as its block is located and parsed; otherwise the
visible-text fallback runs. -/
def extractDetailsFromGameHtml (page : DetailPage) : Details :=
  match page.preload with
  | some (some item) => extractPrimary item
  | _ =>
    match page.nextData with
    | some (some g) => extractSecondary g
    | _ => extractFallback page.body

/-- Model of the JavaScript call s.startsWith(pre), computed on the character
lists. -/
def jsStartsWith (s pre : String) : Bool := pre.data.isPrefixOf s.data

/-- JavaScript logical-or fallback a || b on strings, where an absent
attribute and the empty string are both falsy. -/
def jsOrStr (a : Option String) (b : String) : String :=
  match a with
  | some s => if s = "" then b else s
  | none => b

/-- Start page of the crawl, the START_URL constant of the source. -/
def START_URL : String := "https://boardgamegeek.com/browse/boardgame"

/-- Approximation of WHATWG resolution new URL(rel, base).toString() for the
reference shapes occurring on these pages: protocol-relative references get
https, absolute paths are appended to the site origin, and other relative
references are joined with a slash. No claim depends on the finer points of
reference resolution. -/
def resolveUrl (rel base : String) : String :=
  if jsStartsWith rel "//" then "https:" ++ rel
  else if jsStartsWith rel "/" then base ++ rel
  else base ++ "/" ++ rel

/-- One table row of a listing page as the cheerio selectors of
extractGamesFromHtml see it: the cell count, and for each consulted cell its
data-sort attribute and trimmed text, the two image attributes, the anchor
text, the year capture of the title cell, and the anchor href. -/
structure Row where
  tdCount : ℕ
  rankDataSort : Option String
  rankText : String
  imgSrc : Option String
  imgDataSrc : Option String
  titleText : String
  yearCapture : Option String
  href : Option String
  grDataSort : Option String
  grText : String
  arDataSort : Option String
  arText : String
  nvDataSort : Option String
  nvText : String
deriving DecidableEq, Repr

/-- ListingRecord: the per-row record pushed by extractGamesFromHtml, before
enrichment. -/
structure ListingGame where
  rank : ℚ
  title : String
  year : Option ℚ
  image : Option String
  url : Option String
  geek_rating : Option ℚ
  avg_rating : Option ℚ
  num_voters : Option ℤ
deriving DecidableEq, Repr

/-- Image field of a row: take src, else data-src, else the empty string;
prefix protocol-relative references with https; a nonempty reference is
stored with a leading at-sign marker, an empty one as null. -/
def rowImage (r : Row) : Option String :=
  let src0 := jsOrStr r.imgSrc (jsOrStr r.imgDataSrc "")
  let src := if !(src0 == "") && jsStartsWith src0 "//" then "https:" ++ src0 else src0
  if src = "" then none else some (String.mk ('@' :: src.data))

/-- Detail-page reference of a row: the anchor href or the empty string,
resolved against the site when relative; the empty result is stored as null. -/
def rowUrl (r : Row) : Option String :=
  let h0 := jsOrStr r.href ""
  let h1 := if !(h0 == "") && !(jsStartsWith h0 "http")
    then resolveUrl h0 "https://boardgamegeek.com" else h0
  if h1 = "" then none else some h1

/-- Embedding of the per-row body of extractGamesFromHtml: skip rows with
fewer than six cells, skip rows whose rank does not normalize to a number,
and otherwise build the ListingRecord, preferring data-sort attributes over
display text for rank and the three rating fields. -/
def extractRow (r : Row) : Option ListingGame :=
  if r.tdCount < 6 then none
  else
    match normalizeNumber (some (jsOrStr r.rankDataSort r.rankText)) with
    | none => none
    | some rank =>
      some { rank := rank
           , title := r.titleText
           , year := r.yearCapture.bind (fun c => normalizeNumber (some c))
           , image := rowImage r
           , url := rowUrl r
           , geek_rating := roundTo (normalizeNumber (some (jsOrStr r.grDataSort r.grText))) 3
           , avg_rating := roundTo (normalizeNumber (some (jsOrStr r.arDataSort r.arText))) 2
           , num_voters :=
               (normalizeNumber (some (jsOrStr r.nvDataSort r.nvText))).map jsMathRound }

/-- Embedding of extractGamesFromHtml over the rows of one listing page. -/
def extractGamesFromHtml (rows : List Row) : List ListingGame :=
  rows.filterMap extractRow

/-- One listing page as fetched by the crawl loop: its rows and the href of
the Next link when present. -/
structure ListingHtml where
  rows : List Row
  nextHref : Option String
deriving DecidableEq, Repr

/-- Embedding of getNextPageUrl: the href of the Next link, resolved against
the start reference when relative; none when the link is absent. -/
def getNextPageUrl (page : ListingHtml) : Option String :=
  page.nextHref.map (fun rel =>
    if jsStartsWith rel "http" then rel else resolveUrl rel START_URL)

/-- Image handling of the table viewer renderTableBody: a falsy image field
renders no element; otherwise a leading at-sign marker is stripped and the
rest is the element source. -/
def viewerImageSrc (image : Option String) : Option String :=
  match image with
  | none => none
  | some s =>
    if s = "" then none
    else some (match s.data with
      | '@' :: rest => String.mk rest
      | _ => s)

/-- Network oracle for one crawl run: the outcome of fetching a reference as
a listing page, and the outcome of the k-th fetch attempt of a reference as
a detail page. An Except error is an axios throw. -/
structure World where
  listing : String → Except Unit ListingHtml
  detail : String → ℕ → Except Unit DetailPage

/-- Retry loop of fetchGameDetails: attempt numbers count up from the given
index; a successful fetch is extracted at once, exhaustion rethrows the last
failure. -/
def fetchAttemptsLoop (oracle : ℕ → Except Unit DetailPage) : ℕ → ℕ → Except Unit Details
  | _, 0 => Except.error ()
  | k, n + 1 =>
    match oracle k with
    | Except.ok page => Except.ok (extractDetailsFromGameHtml page)
    | Except.error _ => fetchAttemptsLoop oracle (k + 1) n

/-- Embedding of fetchGameDetails(gameUrl, attempts): a missing reference
short-circuits to the all-missing Details without any fetch; otherwise up to
the given number of attempts are made. -/
def fetchGameDetails (w : World) (gameUrl : Option String) (attempts : ℕ) :
    Except Unit Details :=
  match gameUrl with
  | none => Except.ok allMissingDetails
  | some u => fetchAttemptsLoop (w.detail u) 1 attempts

/-- Enriched record: the listing fields plus the enrichment outcome. details
is none while the seven DetailAttributes keys are absent from the object, and
some d once Object.assign copied the seven keys of d onto it. -/
structure EnrichedGame where
  rank : ℚ
  title : String
  year : Option ℚ
  image : Option String
  url : Option String
  geek_rating : Option ℚ
  avg_rating : Option ℚ
  num_voters : Option ℤ
  details : Option Details
deriving DecidableEq, Repr

/-- A freshly extracted record before enrichment: detail keys absent. -/
def toEnrichedGame (g : ListingGame) : EnrichedGame :=
  { rank := g.rank, title := g.title, year := g.year, image := g.image
  , url := g.url, geek_rating := g.geek_rating, avg_rating := g.avg_rating
  , num_voters := g.num_voters, details := none }

/-- Listing fields of an enriched record. -/
def stripDetails (e : EnrichedGame) : ListingGame :=
  { rank := e.rank, title := e.title, year := e.year, image := e.image
  , url := e.url, geek_rating := e.geek_rating, avg_rating := e.avg_rating
  , num_voters := e.num_voters }

/-- Pagination loop of scrapeAll. Per fetched page: extract the records,
compute the set of already accumulated ranks, append the page records whose
rank is not in that set, stop when a configured target is reached or no Next
link exists; a fetch failure reports an error and stops with what was
accumulated. Fuel bounds the recursion; a run ends long before any sensible
fuel is spent. The Bool records whether the catch branch reported an error. -/
def crawlListing (w : World) (allPages : Bool) (target : ℕ) :
    ℕ → String → List ListingGame → List ListingGame × Bool
  | 0, _, acc => (acc, false)
  | fuel + 1, url, acc =>
    match w.listing url with
    | Except.error _ => (acc, true)
    | Except.ok page =>
      let pageGames := extractGamesFromHtml page.rows
      let existingRanks := acc.map (fun g => g.rank)
      let acc2 := acc ++ pageGames.filter (fun g => !(existingRanks.contains g.rank))
      if !allPages && decide (target ≤ acc2.length) then (acc2, false)
      else
        match getNextPageUrl page with
        | none => (acc2, false)
        | some nextUrl => crawlListing w allPages target fuel nextUrl acc2

/-- Target count of the run: limit, with 0 (a falsy Number) giving 250,
floored at 1. Only consulted when allPages is off. -/
def targetCount (limit : ℕ) : ℕ := max 1 (if limit = 0 then 250 else limit)

/-- Records selected for enrichment: everything in allPages mode, otherwise
the first targetCount accumulated records. -/
def selectedGames (w : World) (fuel : ℕ) (allPages : Bool) (limit : ℕ) :
    List ListingGame :=
  let results := (crawlListing w allPages (targetCount limit) fuel START_URL []).1
  if allPages then results else results.take (targetCount limit)

/-- Whether the listing loop reported a fetch error for the run. -/
def listingFailed (w : World) (fuel : ℕ) (allPages : Bool) (limit : ℕ) : Bool :=
  (crawlListing w allPages (targetCount limit) fuel START_URL []).2

/-- Enrichment of one selected record: on success the seven detail keys are
assigned; the catch branch logs and leaves the record unchanged. -/
def enrichOne (w : World) (g : ListingGame) : EnrichedGame :=
  match fetchGameDetails w g.url 3 with
  | Except.ok d => { toEnrichedGame g with details := some d }
  | Except.error _ => toEnrichedGame g

/-- Embedding of scrapeAll: crawl, select, then enrich each selected record
in order. The inter-request delay has no effect on the data and is not
modelled. -/
def scrapeAll (w : World) (fuel : ℕ) (allPages : Bool) (limit : ℕ) :
    List EnrichedGame :=
  (selectedGames w fuel allPages limit).map (enrichOne w)

/-- Observable outcome of main: the artifact written by writeJsonFile (none
would mean no artifact), the process exit status, and whether the listing
loop reported a fetch error on stderr. -/
structure RunResult where
  output : Option (List EnrichedGame)
  exitCode : ℕ
  errorReported : Bool
deriving DecidableEq, Repr

/-- Embedding of main: scrapeAll never throws (every fetch failure is caught
inside it), writeJsonFile writes the returned array, and the process then
exits normally with status zero. -/
def mainModel (w : World) (fuel : ℕ) (allPages : Bool) (limit : ℕ) : RunResult :=
  { output := some (scrapeAll w fuel allPages limit)
  , exitCode := 0
  , errorReported := listingFailed w fuel allPages limit }

/-- Characterization of the qualifying rows of the alternate best-players
poll, written with inequalities: the count qualifies when the best tally is
at least each of the other two tallies and positive, ties between best and
another category included. -/
def qualifiesBest (r : PollResultRow) : Option ℤ :=
  match coerceInt (firstDigitRun r.numplayersToken) with
  | none => none
  | some num =>
    if num = 0 then none
    else
      let bestVotes := (coerceInt r.bestVotesRaw).getD 0
      let recVotes := (coerceInt r.recVotesRaw).getD 0
      let notRecVotes := (coerceInt r.notRecVotesRaw).getD 0
      if 0 < bestVotes ∧ recVotes ≤ bestVotes ∧ notRecVotes ≤ bestVotes
      then some num else none

/-- BodyFacts with no capture: a page whose visible text matches none of the
fallback patterns. -/
def emptyBody : BodyFacts :=
  { playersRangeCapture := none, bestCapture := none
  , timeRangeCapture := none, weightCapture := none }

/-- Poll rows of the tally example of the spec: three players with tallies
best 5, recommended 2, not recommended 0; four players with tallies best 5,
recommended 5, not recommended 0. -/
def rowsC1 : List PollResultRow :=
  [ { numplayersToken := "3", bestVotesRaw := some "5"
    , recVotesRaw := some "2", notRecVotesRaw := some "0" }
  , { numplayersToken := "4", bestVotesRaw := some "5"
    , recVotesRaw := some "5", notRecVotesRaw := some "0" } ]

/-- Alternate-payload game carrying the tally example poll. -/
def gC1 : NextGame :=
  { minplayers := none, maxplayers := none, minplaytime := none
  , maxplaytime := none, weightRaw := none, bestPoll := some rowsC1 }

/-- Detail page handled by the alternate strategy: no primary block, a parsed
alternate block with the tally example poll. -/
def pageC1 : DetailPage :=
  { preload := none, nextData := some (some gC1), body := emptyBody }

/-- Preload item whose JSON parsed but which carries no field values. -/
def emptyPreloadItem : PreloadItem :=
  { minplayers := none, maxplayers := none, minplaytime := none
  , maxplaytime := none, weightFromPoll := none, weightFromStats := none
  , bestRanges := none }

/-- Alternate-payload game with real data, for the strategy-priority pages. -/
def gFull : NextGame :=
  { minplayers := some "2", maxplayers := some "5", minplaytime := none
  , maxplaytime := none, weightRaw := none, bestPoll := none }

/-- Detail page whose primary block parses but recovers nothing, while the
alternate block holds data. -/
def pageC3 : DetailPage :=
  { preload := some (some emptyPreloadItem), nextData := some (some gFull)
  , body := emptyBody }

/-- Preload item with data, for the strategy-priority pages. -/
def itemC7 : PreloadItem :=
  { minplayers := some "3", maxplayers := some "4", minplaytime := none
  , maxplaytime := none, weightFromPoll := none, weightFromStats := none
  , bestRanges := none }

/-- Detail page where both structured payloads are present and parseable and
disagree. -/
def pageC7 : DetailPage :=
  { preload := some (some itemC7), nextData := some (some gFull)
  , body := emptyBody }

/-- Row template with six cells and empty data. -/
def blankRow : Row :=
  { tdCount := 6, rankDataSort := none, rankText := "", imgSrc := none
  , imgDataSrc := none, titleText := "", yearCapture := none, href := none
  , grDataSort := none, grText := "", arDataSort := none, arText := ""
  , nvDataSort := none, nvText := "" }

/-- Listing row with rank 1 and a protocol-relative image reference. -/
def rowC10 : Row :=
  { blankRow with
      rankDataSort := some "1"
      titleText := "A"
      imgSrc := some "//cf.example/pic.jpg" }

/-- Record extracted from rowC10. -/
def gameC10 : ListingGame :=
  { rank := 1, title := "A", year := none
  , image := some (String.mk ('@' :: ("https://cf.example/pic.jpg" : String).data))
  , url := none, geek_rating := none, avg_rating := none, num_voters := none }

/-- Two listing rows sharing rank 1 inside one page. -/
def lpDupes : ListingHtml :=
  { rows :=
      [ { blankRow with rankDataSort := some "1", titleText := "A" }
      , { blankRow with rankDataSort := some "1", titleText := "B" } ]
  , nextHref := none }

/-- World serving the duplicate-rank page as the start page. -/
def wDupes : World :=
  { listing := fun u => if u = START_URL then Except.ok lpDupes else Except.error ()
  , detail := fun _ _ => Except.error () }

/-- First page of the duplicate-free two-page world: ranks 1 and 2, with an
absolute Next link, which getNextPageUrl passes through unchanged; the second
page repeats rank 2 and adds rank 3. -/
def lpPageOne : ListingHtml :=
  { rows :=
      [ { blankRow with rankDataSort := some "1", titleText := "A" }
      , { blankRow with rankDataSort := some "2", titleText := "B" } ]
  , nextHref := some "https://boardgamegeek.com/browse/boardgame/page/2" }

/-- Second page of the duplicate-free two-page world. -/
def lpPageTwo : ListingHtml :=
  { rows :=
      [ { blankRow with rankDataSort := some "2", titleText := "B" }
      , { blankRow with rankDataSort := some "3", titleText := "C" } ]
  , nextHref := none }

/-- World serving the two-page crawl. -/
def wTwoPages : World :=
  { listing := fun u =>
      if u = START_URL then Except.ok lpPageOne
      else if u = "https://boardgamegeek.com/browse/boardgame/page/2"
      then Except.ok lpPageTwo
      else Except.error ()
  , detail := fun _ _ => Except.error () }

/-- World on which every fetch fails, so already the start page fails. -/
def wAllFail : World :=
  { listing := fun _ => Except.error ()
  , detail := fun _ _ => Except.error () }

/-- Listing page with two records carrying detail references. -/
def lpEnrich : ListingHtml :=
  { rows :=
      [ { blankRow with
            rankDataSort := some "1"
            titleText := "A"
            href := some "https://boardgamegeek.com/boardgame/1" }
      , { blankRow with
            rankDataSort := some "2"
            titleText := "B"
            href := some "https://boardgamegeek.com/boardgame/2" } ]
  , nextHref := none }

/-- Detail page of the second record: a parsed primary block with a minimum
player count. -/
def dpB : DetailPage :=
  { preload := some (some { emptyPreloadItem with minplayers := some "2" })
  , nextData := none, body := emptyBody }

/-- World where the detail fetch of record 1 fails on every attempt and the
detail fetch of record 2 succeeds. -/
def wEnrich : World :=
  { listing := fun u => if u = START_URL then Except.ok lpEnrich else Except.error ()
  , detail := fun u _ =>
      if u = "https://boardgamegeek.com/boardgame/2" then Except.ok dpB
      else Except.error () }

/-- Details extracted for record 2 of wEnrich. -/
def detailsB : Details := { allMissingDetails with min_players := some 2 }

/-- Enriched record 1 of wEnrich: detail keys absent after retry exhaustion. -/
def enrichedA : EnrichedGame :=
  { rank := 1, title := "A", year := none, image := none
  , url := some "https://boardgamegeek.com/boardgame/1"
  , geek_rating := none, avg_rating := none, num_voters := none
  , details := none }

/-! Helper lemmas. -/

lemma dropWhile_eq_self_of_not {p : Char → Bool} {l : List Char}
    (h : ∀ c ∈ l, p c = false) : l.dropWhile p = l := by
  cases l with
  | nil => rfl
  | cons a t => simp [List.dropWhile_cons, h a (by simp)]

lemma trimChars_eq_self {l : List Char}
    (h : ∀ c ∈ l, jsSpaceChar c = false) : trimChars l = l := by
  unfold trimChars
  rw [dropWhile_eq_self_of_not h]
  rw [dropWhile_eq_self_of_not (fun c hc => h c (List.mem_reverse.mp hc))]
  exact List.reverse_reverse l

lemma parseUnsignedDec_dashOnly {cs : List Char}
    (h : ∀ c ∈ cs, c = '-' ∨ c = '–') : parseUnsignedDec cs = none := by
  have hdot : cs.count '.' = 0 := by
    rw [List.count_eq_zero]
    intro hm
    rcases h _ hm with h1 | h1 <;> exact absurd h1 (by decide)
  unfold parseUnsignedDec
  rw [if_pos hdot, if_neg]
  rintro ⟨hne, hdig⟩
  cases cs with
  | nil => exact hne rfl
  | cons a t =>
    have ha := h a (by simp)
    have hd : a.isDigit = false := by rcases ha with h1 | h1 <;> simp [h1]
    simp [allDigits, hd] at hdig

lemma jsNumber_dashOnly {l : List Char} (hne : l ≠ [])
    (h : ∀ c ∈ l, c = '-' ∨ c = '–') : jsNumber (String.mk l) = none := by
  have hns : ∀ c ∈ l, jsSpaceChar c = false := by
    intro c hc
    rcases h c hc with h1 | h1 <;> simp [h1] <;> decide
  unfold jsNumber
  rw [show (String.mk l).data = l from rfl, trimChars_eq_self hns]
  cases l with
  | nil => exact absurd rfl hne
  | cons a t =>
    show (if a = '-' then (parseUnsignedDec t).map (fun q => -q)
      else if a = '+' then parseUnsignedDec t
      else parseUnsignedDec (a :: t)) = none
    rcases h a (by simp) with h1 | h1
    · subst h1
      rw [if_pos rfl, parseUnsignedDec_dashOnly (fun c hc => h c (by simp [hc]))]
      rfl
    · subst h1
      rw [if_neg (by decide), if_neg (by decide)]
      exact parseUnsignedDec_dashOnly h

/-! Claim theorems. -/

/-- Claim C3, counterexample: on a page whose primary block parses but
recovers no field values while the alternate block holds data, the extractor
returns the all-missing primary result and does not move to the alternate
strategy, contrary to the claim. -/
theorem c3_counterexample :
    extractDetailsFromGameHtml pageC3 = allMissingDetails
  ∧ (extractSecondary gFull).min_players = some 2
  ∧ extractDetailsFromGameHtml pageC3 ≠ extractSecondary gFull := by
  refine ⟨rfl, by decide, by decide⟩

/-- Claim C3, amended: the extractor returns the result of the first
strategy whose data block is located and successfully parsed, even when that
result has every field missing; only a block that is absent or fails to
parse passes control to the next strategy. -/
theorem c3_first_parsed_strategy (page : DetailPage) :
    (∀ item, page.preload = some (some item) →
      extractDetailsFromGameHtml page = extractPrimary item)
  ∧ (∀ g, (page.preload = none ∨ page.preload = some none) →
      page.nextData = some (some g) →
      extractDetailsFromGameHtml page = extractSecondary g)
  ∧ ((page.preload = none ∨ page.preload = some none) →
      (page.nextData = none ∨ page.nextData = some none) →
      extractDetailsFromGameHtml page = extractFallback page.body) := by
  obtain ⟨pre, nxt, body⟩ := page
  refine ⟨?_, ?_, ?_⟩
  · rintro item h
    simp only at h
    subst h
    rfl
  · rintro g (h | h) hn <;> simp only at h hn <;> subst h <;> subst hn <;> rfl
  · rintro (h | h) (hn | hn) <;> simp only at h hn <;> subst h <;> subst hn <;> rfl

/-- Claim C3, witness: the amended theorem applied to the concrete page whose
primary block parses empty. -/
theorem c3_witness :
    extractDetailsFromGameHtml pageC3 = extractPrimary emptyPreloadItem :=
  (c3_first_parsed_strategy pageC3).1 emptyPreloadItem rfl

/-- Claim C7: when both structured payloads are present and parseable, every
field of the result comes from the primary payload; the alternate payload
contributes nothing. -/
theorem c7_primary_wins (page : DetailPage) (item : PreloadItem) (g : NextGame)
    (h1 : page.preload = some (some item)) (h2 : page.nextData = some (some g)) :
    extractDetailsFromGameHtml page = extractPrimary item := by
  obtain ⟨pre, nxt, body⟩ := page
  simp only at h1 h2
  subst h1
  subst h2
  rfl

/-- Claim C7, witness: on the concrete page carrying both payloads with
disagreeing values, the result is the primary extraction in full. -/
theorem c7_witness :
    extractDetailsFromGameHtml pageC7 = extractPrimary itemC7 :=
  c7_primary_wins pageC7 itemC7 gFull rfl rfl

/-- Claim C4, counterexample: the rounding operation is not
half-away-from-zero; rounding minus five halves to zero places gives minus
two, not minus three. -/
theorem c4_counterexample :
    roundTo (some (-(5/2))) 0 = some (-2) ∧ roundTo (some (-(5/2))) 0 ≠ some (-3) := by
  constructor <;> norm_num [roundTo, jsMathRound, jsEpsilon]

/-- Claim C4, amended: the rounding operation returns the missing marker on
missing input and otherwise rounds half toward positive infinity after an
epsilon nudge, so every exact half rounds up, for negative inputs too; the
value of round(2.005, 2) is the determinate 2.01. -/
theorem c4_round_half_up :
    (∀ d : ℕ, roundTo none d = none)
  ∧ (∀ n : ℤ, roundTo (some ((n : ℚ) + 1/2)) 0 = some ((n : ℚ) + 1))
  ∧ roundTo (some (2005/1000)) 2 = some (201/100) := by
  refine ⟨fun d => rfl, ?_, by norm_num [roundTo, jsMathRound, jsEpsilon]⟩
  intro n
  norm_num [roundTo, jsMathRound, jsEpsilon]
  rw [show (n : ℚ) + 1/2 + 1/4503599627370496 + 1/2
      = ((n + 1 : ℤ) : ℚ) + (1/4503599627370496 : ℚ) by push_cast; ring]
  rw [Int.floor_int_add]
  norm_num

/-- Claim C8: the normalizer, a total function of the embedding, maps null
input, every token made of thousands separators, whitespace, dashes and
en-dashes, and any other token whose cleaned residue does not parse as a
number, to the missing marker, never to zero, and parses the token 1,234 to
the number 1234. The second conjunct is the catch-all: whatever Number()
rejects as NaN, the normalizer resolves to missing. -/
theorem c8_normalizer_safe :
    (∀ s : String,
      (∀ c ∈ s.data, c = ',' ∨ c = '-' ∨ c = '–' ∨ jsSpaceChar c = true) →
      normalizeNumber (some s) = none)
  ∧ (∀ s : String, jsNumber (jsTrim (cleanCommaSpace s)) = none →
      normalizeNumber (some s) = none)
  ∧ normalizeNumber none = none
  ∧ normalizeNumber (some "abc") = none
  ∧ normalizeNumber (some "1.2.3") = none
  ∧ normalizeNumber (some "7–8") = none
  ∧ normalizeNumber (some "1,234") = some 1234 := by
  refine ⟨?_, ?_, rfl, by rfl, by rfl, by rfl, by rfl⟩
  case refine_2 =>
    intro s hjs
    show (if s = "" then none
      else
        let cleaned := jsTrim (cleanCommaSpace s)
        if cleaned = "" ∨ cleaned = "–" ∨ cleaned = "-" then none
        else jsNumber cleaned) = none
    by_cases h0 : s = ""
    · rw [if_pos h0]
    · rw [if_neg h0]
      show (if jsTrim (cleanCommaSpace s) = "" ∨ jsTrim (cleanCommaSpace s) = "–" ∨
          jsTrim (cleanCommaSpace s) = "-" then none
        else jsNumber (jsTrim (cleanCommaSpace s))) = none
      by_cases hg : jsTrim (cleanCommaSpace s) = "" ∨ jsTrim (cleanCommaSpace s) = "–" ∨
          jsTrim (cleanCommaSpace s) = "-"
      · rw [if_pos hg]
      · rw [if_neg hg]
        exact hjs
  intro s hs
  have hmem : ∀ c ∈ (cleanCommaSpace s).data, c = '-' ∨ c = '–' := by
    intro c hc
    replace hc : c ∈ s.data.filter (fun c => !(c == ',' || jsSpaceChar c)) := hc
    rw [List.mem_filter] at hc
    obtain ⟨hcs, hcp⟩ := hc
    rcases hs c hcs with h1 | h1 | h1 | h1
    · rw [h1] at hcp; simp at hcp
    · exact Or.inl h1
    · exact Or.inr h1
    · rw [h1] at hcp; simp at hcp
  have hspace : ∀ c ∈ (cleanCommaSpace s).data, jsSpaceChar c = false := by
    intro c hc
    rcases hmem c hc with h1 | h1 <;> simp [h1] <;> decide
  have hclean : jsTrim (cleanCommaSpace s) = cleanCommaSpace s := by
    unfold jsTrim
    rw [trimChars_eq_self hspace]
  show (if s = "" then none
    else
      let cleaned := jsTrim (cleanCommaSpace s)
      if cleaned = "" ∨ cleaned = "–" ∨ cleaned = "-" then none
      else jsNumber cleaned) = none
  by_cases h0 : s = ""
  · rw [if_pos h0]
  · rw [if_neg h0]
    show (if jsTrim (cleanCommaSpace s) = "" ∨ jsTrim (cleanCommaSpace s) = "–" ∨
        jsTrim (cleanCommaSpace s) = "-" then none
      else jsNumber (jsTrim (cleanCommaSpace s))) = none
    rw [hclean]
    by_cases hg : cleanCommaSpace s = "" ∨ cleanCommaSpace s = "–" ∨ cleanCommaSpace s = "-"
    · rw [if_pos hg]
    · rw [if_neg hg]
      have hne : (cleanCommaSpace s).data ≠ [] := by
        intro hnil
        exact hg (Or.inl (by
          rw [show cleanCommaSpace s = String.mk (cleanCommaSpace s).data from rfl, hnil]))
      exact jsNumber_dashOnly hne hmem

/-- Claim C8, witness: a token of a space, a comma, an en-dash and a dash,
and an unparseable token with a letter, both normalize to the missing
marker, discharging the hypotheses of the first two conjuncts concretely. -/
theorem c8_witness :
    normalizeNumber (some " ,–-") = none ∧ normalizeNumber (some "12a") = none :=
  ⟨c8_normalizer_safe.1 " ,–-" (by decide),
   c8_normalizer_safe.2.1 "12a" (by rfl)⟩

/-- Inclusion condition of the alternate-poll loop, rewritten with
inequalities: the best tally equals the positive maximum of the three tallies
exactly when it is positive and at least each other tally. -/
lemma bestCond_iff (b r n : ℤ) :
    (0 < max b (max r n) ∧ b = max b (max r n)) ↔ (0 < b ∧ r ≤ b ∧ n ≤ b) := by
  constructor
  · rintro ⟨hpos, heq⟩
    have hle : max r n ≤ b := max_eq_left_iff.mp heq.symm
    rw [← heq] at hpos
    exact ⟨hpos, (max_le_iff.mp hle).1, (max_le_iff.mp hle).2⟩
  · rintro ⟨hpos, hr, hn⟩
    have hle : max r n ≤ b := max_le_iff.mpr ⟨hr, hn⟩
    have heq : max b (max r n) = b := max_eq_left hle
    exact ⟨by rw [heq]; exact hpos, heq.symm⟩

lemma secondaryRowBest_eq_qualifiesBest : secondaryRowBest = qualifiesBest := by
  funext r
  unfold secondaryRowBest qualifiesBest
  cases coerceInt (firstDigitRun r.numplayersToken) with
  | none => rfl
  | some num =>
    simp only
    by_cases h0 : num = 0
    · simp [h0]
    · rw [if_neg h0, if_neg h0]
      rw [if_congr (bestCond_iff _ _ _) rfl rfl]

lemma ite_isEmpty_min (l : List ℤ) : (if l.isEmpty then none else l.min?) = l.min? := by
  cases l <;> simp [List.min?]

lemma ite_isEmpty_max (l : List ℤ) : (if l.isEmpty then none else l.max?) = l.max? := by
  cases l <;> simp [List.max?]

/-- Claim C1, counterexample: on the tally example of the spec, the option
with four players, whose best tally ties its recommended tally, is included,
so the best range is three to four, not three to three. -/
theorem c1_counterexample :
    (extractDetailsFromGameHtml pageC1).min_best_players = some 3
  ∧ (extractDetailsFromGameHtml pageC1).max_best_players = some 4
  ∧ (extractDetailsFromGameHtml pageC1).max_best_players ≠ some 3 := by
  refine ⟨by decide, by decide, by decide⟩

/-- Claim C1, amended: on a detail page handled by the alternate strategy, a
player-count option is included in the best range exactly when its best tally
is positive and at least each of the recommended and not-recommended tallies;
a tie between best and another category does not exclude the option. -/
theorem c1_best_range (page : DetailPage) (g : NextGame) (rows : List PollResultRow)
    (hp : page.preload = none ∨ page.preload = some none)
    (hn : page.nextData = some (some g)) (hr : g.bestPoll = some rows) :
    (extractDetailsFromGameHtml page).min_best_players
      = (rows.filterMap qualifiesBest).min?
  ∧ (extractDetailsFromGameHtml page).max_best_players
      = (rows.filterMap qualifiesBest).max? := by
  have hpage : extractDetailsFromGameHtml page = extractSecondary g := by
    obtain ⟨pre, nxt, body⟩ := page
    rcases hp with h | h <;> simp only at h hn <;> subst h <;> subst hn <;> rfl
  rw [hpage]
  unfold extractSecondary
  rw [hr]
  simp only [secondaryRowBest_eq_qualifiesBest]
  exact ⟨ite_isEmpty_min _, ite_isEmpty_max _⟩

/-- Claim C1, witness: the amended theorem applied to the concrete page
carrying the tally example. -/
theorem c1_witness :
    (extractDetailsFromGameHtml pageC1).min_best_players
      = (rowsC1.filterMap qualifiesBest).min?
  ∧ (extractDetailsFromGameHtml pageC1).max_best_players
      = (rowsC1.filterMap qualifiesBest).max? :=
  c1_best_range pageC1 gC1 rowsC1 (Or.inl rfl) rfl rfl

/-- Listing-loop invariant: when every fetched page individually yields
records with pairwise distinct ranks, appending each page filtered against
the ranks accumulated so far preserves distinctness of ranks. -/
lemma crawl_ranks_nodup (w : World) (ap : Bool) (t : ℕ)
    (hw : ∀ u page, w.listing u = Except.ok page →
      ((extractGamesFromHtml page.rows).map (fun g => g.rank)).Nodup) :
    ∀ fuel url acc, (acc.map (fun g => g.rank)).Nodup →
      (((crawlListing w ap t fuel url acc).1).map (fun g => g.rank)).Nodup := by
  intro fuel
  induction fuel with
  | zero => intro url acc hacc; exact hacc
  | succ n ih =>
    intro url acc hacc
    simp only [crawlListing]
    cases hfetch : w.listing url with
    | error e => exact hacc
    | ok page =>
      simp only
      have hacc2 : ((acc ++ (extractGamesFromHtml page.rows).filter
          (fun g => !((acc.map (fun g => g.rank)).contains g.rank))).map
            (fun g => g.rank)).Nodup := by
        rw [List.map_append, List.nodup_append]
        refine ⟨hacc, ?_, ?_⟩
        · exact (hw url page hfetch).sublist
            ((List.filter_sublist (extractGamesFromHtml page.rows)).map _)
        · intro x hx hx2
          rw [List.mem_map] at hx hx2
          obtain ⟨a, ha, hax⟩ := hx
          obtain ⟨b, hb, hbx⟩ := hx2
          rw [List.mem_filter] at hb
          have hc := hb.2
          simp [List.contains] at hc
          exact hc a ha (hax.trans hbx.symm)
      split
      · exact hacc2
      · split
        · exact hacc2
        · exact ih _ _ hacc2

/-- Claim C2, counterexample: a single listing page yielding two records of
rank one produces an accumulated collection with a duplicate rank, because
the deduplication set is computed before the page is appended. -/
theorem c2_counterexample :
    (selectedGames wDupes 3 false 10).map (fun g => g.rank) = [1, 1]
  ∧ ¬ ((selectedGames wDupes 3 false 10).map (fun g => g.rank)).Nodup := by
  refine ⟨by decide, by decide⟩

/-- Claim C2, amended: a record whose rank was accumulated from an earlier
page fetch is dropped, but duplicates arising inside a single page are all
kept; hence the accumulated collection has one record per distinct rank
whenever every fetched page is individually duplicate-free. -/
theorem c2_rank_unique (w : World) (fuel : ℕ) (ap : Bool) (lim : ℕ)
    (hw : ∀ u page, w.listing u = Except.ok page →
      ((extractGamesFromHtml page.rows).map (fun g => g.rank)).Nodup) :
    ((selectedGames w fuel ap lim).map (fun g => g.rank)).Nodup := by
  unfold selectedGames
  have h := crawl_ranks_nodup w ap (targetCount lim) hw fuel START_URL [] (by simp)
  split
  · exact h
  · exact h.sublist ((List.take_sublist _ _).map _)

/-- Claim C2, witness: the two-page world, whose pages are individually
duplicate-free and share rank two, yields distinct ranks. -/
theorem c2_witness :
    ((selectedGames wTwoPages 3 false 10).map (fun g => g.rank)).Nodup := by
  apply c2_rank_unique
  intro u page h
  simp only [wTwoPages] at h
  split at h
  · cases h
    decide
  · split at h
    · cases h
      decide
    · cases h

/-- Claim C5, counterexample: on the world where even the start page fails,
the run still writes an output artifact, the empty collection, and exits
with status zero; only the stderr report happens. -/
theorem c5_counterexample :
    (mainModel wAllFail 3 false 250).output = some []
  ∧ (mainModel wAllFail 3 false 250).output ≠ none
  ∧ (mainModel wAllFail 3 false 250).exitCode = 0
  ∧ (mainModel wAllFail 3 false 250).errorReported = true := by
  refine ⟨by decide, by decide, rfl, by decide⟩

/-- Claim C5, amended: when fetching the very first listing page fails, the
run reports the error and then completes normally, writing an output
artifact holding the empty collection and exiting with status zero. -/
theorem c5_start_failure (w : World) (fuel : ℕ) (ap : Bool) (lim : ℕ)
    (h : w.listing START_URL = Except.error ()) (hf : 0 < fuel) :
    (mainModel w fuel ap lim).output = some []
  ∧ (mainModel w fuel ap lim).exitCode = 0
  ∧ (mainModel w fuel ap lim).errorReported = true := by
  obtain ⟨n, rfl⟩ : ∃ n, fuel = n + 1 := ⟨fuel - 1, by omega⟩
  have hcrawl : crawlListing w ap (targetCount lim) (n + 1) START_URL [] = ([], true) := by
    simp only [crawlListing, h]
  refine ⟨?_, rfl, ?_⟩
  · simp [mainModel, scrapeAll, selectedGames, hcrawl]
  · simp [mainModel, listingFailed, hcrawl]

/-- Claim C5, witness: the amended theorem applied to the all-failing world. -/
theorem c5_witness :
    (mainModel wAllFail 1 false 250).output = some []
  ∧ (mainModel wAllFail 1 false 250).exitCode = 0
  ∧ (mainModel wAllFail 1 false 250).errorReported = true :=
  c5_start_failure wAllFail 1 false 250 rfl (by decide)

/-- Claim C6, counterexample: in the world where the detail fetch of the
first record fails on every attempt and that of the second succeeds, the
first record ends with its seven detail keys absent, not with explicit
null markers. -/
theorem c6_counterexample :
    (scrapeAll wEnrich 3 false 10).map (fun e => e.details) = [none, some detailsB]
  ∧ (scrapeAll wEnrich 3 false 10).map (fun e => e.details)
      ≠ [some allMissingDetails, some detailsB] := by
  refine ⟨by decide, by decide⟩

/-- Claim C6, amended: a record whose detail fetch fails on all three
attempts keeps its detail keys absent while every other record is enriched
with the outcome of its own fetch, a record without a detail reference gets
the explicit all-missing attribute object, and the run exits with status
zero. -/
theorem c6_enrichment_isolation (w : World) (fuel : ℕ) (ap : Bool) (lim : ℕ) :
    (∀ e ∈ scrapeAll w fuel ap lim,
      (fetchGameDetails w e.url 3 = Except.error () → e.details = none)
      ∧ (∀ d, fetchGameDetails w e.url 3 = Except.ok d → e.details = some d)
      ∧ (e.url = none → e.details = some allMissingDetails))
  ∧ (mainModel w fuel ap lim).exitCode = 0 := by
  refine ⟨?_, rfl⟩
  intro e he
  rw [scrapeAll, List.mem_map] at he
  obtain ⟨g, hg, rfl⟩ := he
  have hurl : (enrichOne w g).url = g.url := by
    unfold enrichOne
    cases fetchGameDetails w g.url 3 <;> rfl
  rw [hurl]
  refine ⟨?_, ?_, ?_⟩
  · intro herr
    unfold enrichOne
    rw [herr]
    rfl
  · intro d hok
    unfold enrichOne
    rw [hok]
  · intro hnone
    unfold enrichOne
    rw [hnone]
    rfl

/-- Claim C6, witness: the amended theorem applied to the concrete world; the
first record is a member of the output and carries absent detail keys. -/
theorem c6_witness :
    enrichedA ∈ scrapeAll wEnrich 3 false 10 ∧ enrichedA.details = none := by
  have h := (c6_enrichment_isolation wEnrich 3 false 10).1 enrichedA (by decide)
  exact ⟨by decide, h.1 (by rfl)⟩

/-- Enrichment frame: stripping the detail keys of an enriched record
recovers the listing record unchanged, whichever way its fetch went. -/
lemma stripDetails_enrichOne (w : World) (g : ListingGame) :
    stripDetails (enrichOne w g) = g := by
  unfold enrichOne
  cases fetchGameDetails w g.url 3 <;> rfl

/-- Claim C9: enrichment only adds the seven detail fields; every
listing-derived field of every selected record is unchanged, and the final
output is exactly the selected records in their original listing order. -/
theorem c9_enrich_frame (w : World) (fuel : ℕ) (ap : Bool) (lim : ℕ) :
    (scrapeAll w fuel ap lim).map stripDetails = selectedGames w fuel ap lim
  ∧ ∀ g : ListingGame, stripDetails (enrichOne w g) = g := by
  refine ⟨?_, stripDetails_enrichOne w⟩
  unfold scrapeAll
  rw [List.map_map]
  rw [show stripDetails ∘ enrichOne w = id from funext (stripDetails_enrichOne w)]
  exact List.map_id _

/-- Stripping behaviour of the viewer on a marked image reference: the
leading at-sign and nothing else is removed. -/
lemma viewerImageSrc_marker (t : String) :
    viewerImageSrc (some (String.mk ('@' :: t.data))) = some t := by
  simp only [viewerImageSrc]
  rw [if_neg (by
    intro hcon
    have hd := congrArg String.data hcon
    simp at hd)]

/-- Claim C10: every record produced by the listing extractor has either a
null image or an image of one at-sign marker followed by the chosen source
reference, protocol-relative references first completed to https; the viewer
strips exactly the marker; an absent source yields null, never empty text. -/
theorem c10_image_at_marker (r : Row) (g : ListingGame) (h : extractRow r = some g) :
    (jsOrStr r.imgSrc (jsOrStr r.imgDataSrc "") = "" → g.image = none)
  ∧ (∀ raw, raw = jsOrStr r.imgSrc (jsOrStr r.imgDataSrc "") → raw ≠ "" →
      jsStartsWith raw "//" = false →
      g.image = some (String.mk ('@' :: raw.data))
      ∧ viewerImageSrc g.image = some raw)
  ∧ (∀ raw, raw = jsOrStr r.imgSrc (jsOrStr r.imgDataSrc "") → raw ≠ "" →
      jsStartsWith raw "//" = true →
      g.image = some (String.mk ('@' :: ("https:" ++ raw).data))
      ∧ viewerImageSrc g.image = some ("https:" ++ raw)) := by
  have himg : g.image = rowImage r := by
    unfold extractRow at h
    split at h
    · exact absurd h (by simp)
    · split at h
      · exact absurd h (by simp)
      · rw [← Option.some.inj h]
  rw [himg]
  refine ⟨?_, ?_, ?_⟩
  · intro hraw
    simp only [rowImage]
    rw [hraw]
    rfl
  · intro raw hraw hne hsw
    have hbeq : (raw == "") = false := beq_eq_false_iff_ne.mpr hne
    have himg2 : rowImage r = some (String.mk ('@' :: raw.data)) := by
      simp only [rowImage]
      rw [← hraw]
      rw [if_neg (show ¬(!(raw == "") && jsStartsWith raw "//") = true by
        rw [hbeq, hsw]; decide)]
      rw [if_neg hne]
    exact ⟨himg2, by rw [himg2]; exact viewerImageSrc_marker raw⟩
  · intro raw hraw hne hsw
    have hbeq : (raw == "") = false := beq_eq_false_iff_ne.mpr hne
    have hne2 : ("https:" ++ raw) ≠ "" := by
      obtain ⟨lr⟩ := raw
      intro hcon
      have hd := congrArg String.data hcon
      simp at hd
    have himg3 : rowImage r
        = some (String.mk ('@' :: ("https:" ++ raw).data)) := by
      simp only [rowImage]
      rw [← hraw]
      rw [if_pos (show (!(raw == "") && jsStartsWith raw "//") = true by
        rw [hbeq, hsw]; decide)]
      rw [if_neg hne2]
    refine ⟨himg3, ?_⟩
    rw [himg3]
    exact viewerImageSrc_marker ("https:" ++ raw)

/-- Claim C10, witness: the theorem applied to the concrete row with a
protocol-relative image reference. -/
theorem c10_witness :
    gameC10.image = some (String.mk ('@' :: ("https:" ++ "//cf.example/pic.jpg").data))
  ∧ viewerImageSrc gameC10.image = some ("https:" ++ "//cf.example/pic.jpg") :=
  (c10_image_at_marker rowC10 gameC10 (by rfl)).2.2 "//cf.example/pic.jpg"
    rfl (by decide) (by rfl)

end BGG





